import Mathlib

/-!
Verification of the EasyNote note store.

This file gives a shallow embedding of the note-management logic of the
EasyNote Chrome extension (the `NoteMaster` class in `scripts/popup.js`,
the `OptionsManager` class in `options.js` and the `BackgroundManager`
class in `background.js`) and proves the specified properties about it.

Modelling conventions:
* JavaScript strings are Lean `String`s (lists of characters).
* The `created` / `modified` ISO timestamp strings produced by
  `new Date().toISOString()` are modelled as natural numbers (epoch
  milliseconds); `new Date(a) - new Date(b)` comparisons become natural
  number comparisons.
* `chrome.storage.local` is modelled as an explicit `Option (List Note)`
  value (the value stored under the `"notes"` key, or `none` when the key
  is absent), and the success or failure of an asynchronous backend call
  is an explicit boolean parameter.  A rejected promise that the source
  catches is modelled by the catch branch of the embedded function.
* DOM side effects (`alert`, `showSaveStatus`, `downloadFile`,
  `console.error`) are modelled as explicit fields of the result records.
-/

set_option maxRecDepth 40000

namespace EasyNote

/-- A note as created and saved by the popup UI (`popup.js`):
`id`, `title`, `content`, `created`, `modified`. -/
structure Note where
  id : String
  title : String
  content : String
  created : Nat
  modified : Nat
deriving Repr, DecidableEq

/-- A note as created by the background capture flows (`background.js`),
which additionally carry `tags` and `category`. -/
structure CaptureNote where
  id : String
  title : String
  content : String
  tags : List String
  category : String
  created : Nat
  modified : Nat
deriving Repr, DecidableEq

/-! ### JavaScript string primitives -/

/-- Whitespace recognised by JavaScript `String.prototype.trim`
(tab, LF, VT, FF, CR, space, NBSP, BOM), by character code. -/
def jsWS (c : Char) : Bool :=
  c.toNat = 32 || c.toNat = 9 || c.toNat = 10 || c.toNat = 13 ||
  c.toNat = 11 || c.toNat = 12 || c.toNat = 160 || c.toNat = 65279

/-- Trim on character lists: drop leading and trailing whitespace. -/
def jsTrimL (l : List Char) : List Char :=
  ((l.dropWhile jsWS).reverse.dropWhile jsWS).reverse

/-- Model of JavaScript `String.prototype.trim`. -/
def jsTrim (s : String) : String := ⟨jsTrimL s.data⟩

/-- Model of JavaScript `String.prototype.toLowerCase` on one character
(ASCII case folding: codes 65–90 map to 97–122). -/
def lowerChar (c : Char) : Char :=
  if 65 ≤ c.toNat && c.toNat ≤ 90 then Char.ofNat (c.toNat + 32) else c

/-- Model of JavaScript `String.prototype.toLowerCase`. -/
def jsToLower (s : String) : String := ⟨s.data.map lowerChar⟩

/-- List-prefix test used to implement the substring test. -/
def startsL : List Char → List Char → Bool
  | _, [] => true
  | [], _ :: _ => false
  | a :: as, b :: bs => a == b && startsL as bs

/-- Substring occurrence test on character lists. -/
def containsL : List Char → List Char → Bool
  | [], pat => pat.isEmpty
  | a :: t, pat => startsL (a :: t) pat || containsL t pat

/-- Model of JavaScript `String.prototype.includes`. -/
def jsIncludes (s pat : String) : Bool := containsL s.data pat.data

/-! ### The popup note store (`popup.js`) -/

/-- `createNewNote` (popup.js): a fresh transient note with empty title and
content and `created` = `modified` = the current time; `newId` stands for
the value produced by `generateId()`. -/
def createNewNote (newId : String) (now : Nat) : Note :=
  { id := newId, title := "", content := "", created := now, modified := now }

/-- `saveNotes` (popup.js): `chrome.storage.local.set({ notes })` inside
`try`/`catch`.  Returns the new backend content together with whether the
catch branch ran (`console.error`).  On failure the backend keeps its old
content and no exception escapes. -/
def saveNotesOp (stored : Option (List Note)) (notes : List Note) (writeOk : Bool) :
    Option (List Note) × Bool :=
  if writeOk then (some notes, false) else (stored, true)

/-- The upsert step of `saveCurrentNote` (popup.js): `findIndex` on `id`,
then `unshift` for a new id or in-place assignment for an existing one. -/
def upsertNote (notes : List Note) (u : Note) : List Note :=
  match notes.findIdx? (fun m => m.id == u.id) with
  | none => u :: notes
  | some i => notes.set i u

/-- Everything observable about one run of `saveCurrentNote`. -/
structure SaveOutcome where
  notes : List Note
  stored : Option (List Note)
  writeAttempt : Option (List Note)
  errorLogged : Bool
  alerted : Bool
  status : Option String
deriving Repr, DecidableEq

/-- `saveCurrentNote(showFeedback)` (popup.js).  `titleInput` and
`editorInput` are the DOM field contents, `cur` is `this.currentNote`,
`notes` the in-memory collection, `stored` the backend content and
`writeOk` whether the backend write succeeds.  The source trims both
inputs, rejects when both are empty (alerting only when `showFeedback`),
otherwise normalises an empty title to "Untitled Note", stamps
`modified`, upserts by `id` and writes the full collection through
`saveNotes`, finally showing the success status when `showFeedback`. -/
def saveCurrentNote (notes : List Note) (stored : Option (List Note)) (cur : Note)
    (titleInput editorInput : String) (now : Nat) (showFeedback : Bool) (writeOk : Bool) :
    SaveOutcome :=
  let title := jsTrim titleInput
  let content := jsTrim editorInput
  if title = "" ∧ content = "" then
    { notes := notes, stored := stored, writeAttempt := none, errorLogged := false,
      alerted := showFeedback, status := none }
  else
    let updated : Note :=
      { cur with title := if title = "" then "Untitled Note" else title,
                 content := content, modified := now }
    let notes' := upsertNote notes updated
    let w := saveNotesOp stored notes' writeOk
    { notes := notes', stored := w.1, writeAttempt := some notes', errorLogged := w.2,
      alerted := false,
      status := if showFeedback then some "Note saved successfully!" else none }

/-- Everything observable about one run of `deleteNote`. -/
structure DeleteOutcome where
  notes : List Note
  stored : Option (List Note)
  writeAttempt : Option (List Note)
  errorLogged : Bool
  status : Option String
deriving Repr, DecidableEq

/-- `deleteNote(noteId)` (popup.js): behind a `confirm` gate, filter the
collection on `note.id !== noteId`, write it through `saveNotes`, and show
the "Note deleted" status. -/
def deleteNote (notes : List Note) (stored : Option (List Note)) (noteId : String)
    (confirmed : Bool) (writeOk : Bool) : DeleteOutcome :=
  if confirmed then
    let notes' := notes.filter (fun n => n.id != noteId)
    let w := saveNotesOp stored notes' writeOk
    { notes := notes', stored := w.1, writeAttempt := some notes', errorLogged := w.2,
      status := some "Note deleted" }
  else
    { notes := notes, stored := stored, writeAttempt := none, errorLogged := false,
      status := none }

/-- The sort applied by `loadNotes`:
`notes.sort((a, b) => new Date(b.modified) - new Date(a.modified))`, a
stable sort by `modified` descending. -/
def sortByModifiedDesc (l : List Note) : List Note :=
  l.mergeSort (fun a b => decide (b.modified ≤ a.modified))

/-- `loadNotes` (popup.js): read the `"notes"` key (`result.notes || []`),
sort by `modified` descending; the `catch` branch degrades to `[]`. -/
def loadNotes (stored : Option (List Note)) (readOk : Bool) : List Note :=
  if readOk then sortByModifiedDesc (stored.getD []) else []

/-- `searchNotes(query)` (popup.js): lowercase and trim the query; an empty
search term renders the full collection, otherwise filter on a substring
match against lowercased `title` or lowercased `content`. -/
def searchNotes (notes : List Note) (query : String) : List Note :=
  let searchTerm := jsTrim (jsToLower query)
  if searchTerm = "" then notes
  else notes.filter (fun note =>
    jsIncludes (jsToLower note.title) searchTerm ||
    jsIncludes (jsToLower note.content) searchTerm)

/-! ### The background capture flow (`background.js`) -/

/-- Model of the DOM-based `escapeHtml` helper (`div.textContent := text;
div.innerHTML`), which HTML-escapes `&`, `<` and `>`. -/
def escHtmlChar (c : Char) : List Char :=
  if c = '&' then "&amp;".data
  else if c = '<' then "&lt;".data
  else if c = '>' then "&gt;".data
  else [c]

/-- Model of the `escapeHtml` utility of `background.js`. -/
def escapeHtml (s : String) : String := ⟨(s.data.map escHtmlChar).flatten⟩

/-- `saveSelectedText` (background.js): abort when there is no selection,
otherwise build a capture note whose `created` and `modified` are both the
current time, tagged `web-clip` in category `web`. -/
def saveSelectedText (selectionText tabTitle tabUrl : String) (newId : String) (now : Nat) :
    Option CaptureNote :=
  if selectionText = "" then none
  else some
    { id := newId,
      title := "Selection from " ++ tabTitle,
      content := "<p>" ++ escapeHtml selectionText ++ "</p><br><p><em>Source: <a href=\""
        ++ tabUrl ++ "\">" ++ tabTitle ++ "</a></em></p>",
      tags := ["web-clip"],
      category := "web",
      created := now,
      modified := now }

/-! ### Helper lemmas -/

theorem toNat_ofNat_valid (n : Nat) (h : n.isValidChar) : (Char.ofNat n).toNat = n := by
  simp only [Char.ofNat, dif_pos h]
  rfl

theorem jsWS_lowerChar (c : Char) : jsWS (lowerChar c) = jsWS c := by
  unfold lowerChar
  split
  next h =>
    simp only [Bool.and_eq_true, decide_eq_true_eq] at h
    have h2 : (Char.ofNat (c.toNat + 32)).toNat = c.toNat + 32 :=
      toNat_ofNat_valid _ (Or.inl (by omega))
    have e1 : jsWS (Char.ofNat (c.toNat + 32)) = false := by
      simp only [jsWS, h2, Bool.or_eq_false_iff, decide_eq_false_iff_not]
      omega
    have e2 : jsWS c = false := by
      simp only [jsWS, Bool.or_eq_false_iff, decide_eq_false_iff_not]
      omega
    rw [e1, e2]
  next => rfl

theorem jsTrimL_eq_nil_of_all_ws {l : List Char} (h : ∀ c ∈ l, jsWS c = true) :
    jsTrimL l = [] := by
  unfold jsTrimL
  rw [List.dropWhile_eq_nil_iff.2 h]
  simp

theorem findIdx?_none_of_all {α : Type} {p : α → Bool} :
    ∀ (l : List α) (i : Nat), (∀ m ∈ l, p m = false) → List.findIdx? p l i = none := by
  intro l
  induction l with
  | nil => intro i _; simp [List.findIdx?_nil]
  | cons a t ih =>
    intro i h
    rw [List.findIdx?_cons, h a (List.mem_cons_self a t)]
    rw [if_neg Bool.false_ne_true]
    exact ih (i + 1) (fun m hm => h m (List.mem_cons_of_mem a hm))

theorem findIdx?_some_of_exists {α : Type} {p : α → Bool} :
    ∀ l : List α, (∃ m ∈ l, p m = true) →
      ∃ j, List.findIdx? p l 0 = some j ∧ j < l.length ∧
        ∃ m, l[j]? = some m ∧ p m = true := by
  intro l
  induction l with
  | nil => rintro ⟨m, hm, -⟩; simp at hm
  | cons a t ih =>
    rintro ⟨m, hm, hpm⟩
    by_cases hpa : p a = true
    · exact ⟨0, by rw [List.findIdx?_cons, if_pos hpa], by simp, a, by simp, hpa⟩
    · have hm' : m ∈ t := by
        rcases List.mem_cons.1 hm with rfl | hmem
        · exact absurd hpm hpa
        · exact hmem
      obtain ⟨j, hj, hjl, m', hm'', hpm'⟩ := ih ⟨m, hm', hpm⟩
      refine ⟨j + 1, ?_, by simpa using Nat.succ_lt_succ hjl, m', by simpa using hm'', hpm'⟩
      rw [List.findIdx?_cons, if_neg hpa, List.findIdx?_succ, hj]
      rfl

theorem upsertNote_fresh {notes : List Note} {u : Note} (h : ∀ m ∈ notes, m.id ≠ u.id) :
    upsertNote notes u = u :: notes := by
  unfold upsertNote
  rw [findIdx?_none_of_all notes 0 (fun m hm => by simp [h m hm])]

theorem upsertNote_existing {notes : List Note} {u : Note} (h : ∃ m ∈ notes, m.id = u.id) :
    ∃ i, i < notes.length ∧ (∃ m, notes[i]? = some m ∧ m.id = u.id) ∧
      upsertNote notes u = notes.set i u := by
  obtain ⟨m₀, hm₀, he₀⟩ := h
  obtain ⟨j, hj, hjl, m, hm, hpm⟩ :=
    @findIdx?_some_of_exists Note (fun x => x.id == u.id) notes ⟨m₀, hm₀, by simp [he₀]⟩
  refine ⟨j, hjl, ⟨m, hm, by simpa using hpm⟩, ?_⟩
  unfold upsertNote
  rw [hj]

theorem mem_upsertNote {m u : Note} {notes : List Note} (h : m ∈ upsertNote notes u) :
    m = u ∨ m ∈ notes := by
  unfold upsertNote at h
  rcases hf : notes.findIdx? (fun x => x.id == u.id) with _ | i
  · rw [hf] at h
    exact List.mem_cons.1 h
  · rw [hf] at h
    rcases List.mem_or_eq_of_mem_set h with h1 | h1
    · exact Or.inr h1
    · exact Or.inl h1

/-! ### C1: saving a fully-empty note is rejected with a prompt -/

/-- C1: when validation feedback is enabled and both the title and the
content are empty after trimming, `saveCurrentNote` rejects the save: the
in-memory collection, the persisted collection and the write channel are
all left untouched, and the rejection surfaces as a user-visible alert
rather than a silent failure (no status, no write attempt). -/
theorem saveCurrentNote_rejects_empty (notes : List Note) (stored : Option (List Note))
    (cur : Note) (titleInput editorInput : String) (now : Nat) (writeOk : Bool)
    (ht : jsTrim titleInput = "") (hc : jsTrim editorInput = "") :
    saveCurrentNote notes stored cur titleInput editorInput now true writeOk =
      { notes := notes, stored := stored, writeAttempt := none, errorLogged := false,
        alerted := true, status := none } := by
  simp [saveCurrentNote, ht, hc]

theorem saveCurrentNote_rejects_empty_witness :
    jsTrim "   " = "" ∧ jsTrim "" = "" ∧
    saveCurrentNote [⟨"x", "T", "C", 1, 2⟩] (some [⟨"x", "T", "C", 1, 2⟩]) ⟨"n1", "", "", 0, 0⟩
        "   " "" 5 true true =
      { notes := [⟨"x", "T", "C", 1, 2⟩], stored := some [⟨"x", "T", "C", 1, 2⟩],
        writeAttempt := none, errorLogged := false, alerted := true, status := none } :=
  ⟨by decide, by decide,
    saveCurrentNote_rejects_empty [⟨"x", "T", "C", 1, 2⟩] (some [⟨"x", "T", "C", 1, 2⟩])
      ⟨"n1", "", "", 0, 0⟩ "   " "" 5 true (by decide) (by decide)⟩

/-! ### C3: search semantics -/

/-- C3: `searchNotes` with an empty or whitespace-only query returns the
full in-memory collection unfiltered; otherwise it returns exactly the
notes whose lowercased title or lowercased raw stored content contains
the lowercased, trimmed query as a substring.  `searchNotes` is a pure
function of the in-memory collection: no persistence argument occurs. -/
theorem searchNotes_spec :
    (∀ (notes : List Note) (q : String), q.data.all jsWS = true →
      searchNotes notes q = notes) ∧
    (∀ (notes : List Note) (q : String), jsTrim (jsToLower q) ≠ "" →
      searchNotes notes q = notes.filter (fun n =>
        jsIncludes (jsToLower n.title) (jsTrim (jsToLower q)) ||
        jsIncludes (jsToLower n.content) (jsTrim (jsToLower q)))) := by
  constructor
  · intro notes q hq
    have hall : ∀ c ∈ q.data.map lowerChar, jsWS c = true := by
      intro c hc
      obtain ⟨d, hd, rfl⟩ := List.mem_map.1 hc
      rw [jsWS_lowerChar]
      exact List.all_eq_true.1 hq d hd
    have htrim : jsTrim (jsToLower q) = "" := by
      show String.mk (jsTrimL (q.data.map lowerChar)) = ""
      rw [jsTrimL_eq_nil_of_all_ws hall]
    simp [searchNotes, htrim]
  · intro notes q hq
    simp only [searchNotes]
    rw [if_neg hq]

theorem searchNotes_spec_witness :
    ((" ".data.all jsWS = true) ∧
      searchNotes [⟨"a", "Groceries", "<p>milk</p>", 0, 0⟩] " "
        = [⟨"a", "Groceries", "<p>milk</p>", 0, 0⟩]) ∧
    ((jsTrim (jsToLower "MILK") ≠ "") ∧
      searchNotes [⟨"a", "Groceries", "<p>milk</p>", 0, 0⟩] "MILK"
        = List.filter (fun n =>
            jsIncludes (jsToLower n.title) (jsTrim (jsToLower "MILK")) ||
            jsIncludes (jsToLower n.content) (jsTrim (jsToLower "MILK")))
          [⟨"a", "Groceries", "<p>milk</p>", 0, 0⟩]) :=
  ⟨⟨by decide, searchNotes_spec.1 [⟨"a", "Groceries", "<p>milk</p>", 0, 0⟩] " " (by decide)⟩,
   ⟨by decide, searchNotes_spec.2 [⟨"a", "Groceries", "<p>milk</p>", 0, 0⟩] "MILK" (by decide)⟩⟩

/-! ### C7: load semantics -/

/-- C7: `loadNotes` returns the empty collection when the backend holds
nothing under the `"notes"` key, degrades to the empty collection without
propagating an error when the backend read fails, and otherwise returns a
permutation of the stored collection sorted by `modified` descending. -/
theorem loadNotes_spec :
    (loadNotes none true = []) ∧
    (∀ stored, loadNotes stored false = []) ∧
    (∀ ns : List Note,
      (loadNotes (some ns) true).Perm ns ∧
      List.Pairwise (fun a b : Note => b.modified ≤ a.modified) (loadNotes (some ns) true)) := by
  refine ⟨?_, ?_, ?_⟩
  · simp [loadNotes, sortByModifiedDesc]
  · intro stored; rfl
  · intro ns
    constructor
    · simpa [loadNotes, sortByModifiedDesc] using
        List.mergeSort_perm ns (fun a b : Note => decide (b.modified ≤ a.modified))
    · have h := @List.sorted_mergeSort Note (fun a b : Note => decide (b.modified ≤ a.modified))
        (fun a b c h1 h2 => by simp only [decide_eq_true_eq] at *; omega)
        (fun a b => by simp only [Bool.or_eq_true, decide_eq_true_eq]; omega) ns
      have h2 := h.imp (fun hab => by simpa using hab)
      simpa [loadNotes, sortByModifiedDesc] using h2

/-! ### C8: delete semantics -/

/-- C8: a confirmed `deleteNote noteId` keeps exactly the notes whose id
differs from `noteId` (so a present id is removed); when no note has that
id the collection is unchanged and the operation still completes normally
(status shown, no exception); in both cases the resulting collection is
handed to the backend write, and on a successful write it is persisted. -/
theorem deleteNote_spec :
    (∀ notes stored noteId writeOk,
      (deleteNote notes stored noteId true writeOk).notes
        = notes.filter (fun n => n.id != noteId)) ∧
    (∀ notes stored noteId writeOk (m : Note),
      m ∈ (deleteNote notes stored noteId true writeOk).notes ↔ m ∈ notes ∧ m.id ≠ noteId) ∧
    (∀ notes stored noteId writeOk, (∀ m ∈ notes, m.id ≠ noteId) →
      (deleteNote notes stored noteId true writeOk).notes = notes ∧
      (deleteNote notes stored noteId true writeOk).status = some "Note deleted") ∧
    (∀ notes stored noteId writeOk,
      (deleteNote notes stored noteId true writeOk).writeAttempt
        = some ((deleteNote notes stored noteId true writeOk).notes) ∧
      (writeOk = true →
        (deleteNote notes stored noteId true writeOk).stored
          = some ((deleteNote notes stored noteId true writeOk).notes))) := by
  refine ⟨?_, ?_, ?_, ?_⟩
  · intro notes stored noteId writeOk
    simp [deleteNote]
  · intro notes stored noteId writeOk m
    simp [deleteNote, List.mem_filter]
  · intro notes stored noteId writeOk h
    constructor
    · simp only [deleteNote, if_pos rfl]
      exact List.filter_eq_self.2 (fun a ha => by simp [h a ha])
    · rfl
  · intro notes stored noteId writeOk
    constructor
    · rfl
    · intro hw
      subst hw
      simp [deleteNote, saveNotesOp]

theorem deleteNote_spec_witness :
    (∀ m ∈ ([⟨"a", "T", "C", 1, 2⟩] : List Note), m.id ≠ "zzz") ∧
    (deleteNote [⟨"a", "T", "C", 1, 2⟩] (some []) "zzz" true true).notes
      = [⟨"a", "T", "C", 1, 2⟩] ∧
    (deleteNote [⟨"a", "T", "C", 1, 2⟩] (some []) "zzz" true true).status = some "Note deleted" :=
  ⟨by decide,
   (deleteNote_spec.2.2.1 [⟨"a", "T", "C", 1, 2⟩] (some []) "zzz" true (by decide)).1,
   (deleteNote_spec.2.2.1 [⟨"a", "T", "C", 1, 2⟩] (some []) "zzz" true (by decide)).2⟩

/-! ### C2: save upserts by id -/

/-- C2: a save whose trimmed title or trimmed content is non-empty builds
the updated note (empty title normalised to "Untitled Note", `modified`
stamped with the current time, `id` and `created` untouched) and upserts
it by `id`: a fresh id is inserted at the front, an existing id is
replaced in place preserving its position and every other position; the
full resulting collection is handed to the backend write and persisted on
a successful write. -/
theorem saveCurrentNote_upserts (notes : List Note) (stored : Option (List Note)) (cur : Note)
    (titleInput editorInput : String) (now : Nat) (showFeedback writeOk : Bool)
    (h : ¬(jsTrim titleInput = "" ∧ jsTrim editorInput = "")) :
    ∃ u : Note,
      u = { cur with
              title := if jsTrim titleInput = "" then "Untitled Note" else jsTrim titleInput,
              content := jsTrim editorInput, modified := now } ∧
      u.id = cur.id ∧ u.created = cur.created ∧ u.modified = now ∧
      (jsTrim titleInput = "" → u.title = "Untitled Note") ∧
      (saveCurrentNote notes stored cur titleInput editorInput now showFeedback writeOk).notes
        = upsertNote notes u ∧
      ((∀ m ∈ notes, m.id ≠ cur.id) → upsertNote notes u = u :: notes) ∧
      ((∃ m ∈ notes, m.id = cur.id) → ∃ i, i < notes.length ∧
        (∃ m, notes[i]? = some m ∧ m.id = cur.id) ∧
        upsertNote notes u = notes.set i u ∧
        (upsertNote notes u).length = notes.length ∧
        (upsertNote notes u)[i]? = some u ∧
        ∀ j, j ≠ i → (upsertNote notes u)[j]? = notes[j]?) ∧
      (saveCurrentNote notes stored cur titleInput editorInput now showFeedback writeOk).writeAttempt
        = some (upsertNote notes u) ∧
      (writeOk = true →
        (saveCurrentNote notes stored cur titleInput editorInput now showFeedback writeOk).stored
          = some (upsertNote notes u)) := by
  refine ⟨_, rfl, rfl, rfl, rfl, fun ht => by simp [ht], ?_, ?_, ?_, ?_, ?_⟩
  · simp [saveCurrentNote, if_neg h]
  · intro hfresh
    exact upsertNote_fresh (fun m hm => hfresh m hm)
  · intro hex
    obtain ⟨i, hil, hm, heq⟩ := @upsertNote_existing notes
      { cur with
          title := if jsTrim titleInput = "" then "Untitled Note" else jsTrim titleInput,
          content := jsTrim editorInput, modified := now } hex
    refine ⟨i, hil, hm, heq, ?_, ?_, ?_⟩
    · rw [heq, List.length_set]
    · rw [heq]
      exact List.getElem?_set_self hil
    · intro j hj
      rw [heq]
      exact List.getElem?_set_ne (Ne.symm hj)
  · simp [saveCurrentNote, if_neg h]
  · intro hw
    subst hw
    simp [saveCurrentNote, if_neg h, saveNotesOp]

theorem saveCurrentNote_upserts_witness :
    ¬(jsTrim "Groceries" = "" ∧ jsTrim "<p>milk</p>" = "") ∧
    (saveCurrentNote [] none ⟨"id1", "", "", 3, 3⟩ "Groceries" "<p>milk</p>" 7 true true).notes
      = [⟨"id1", "Groceries", "<p>milk</p>", 3, 7⟩] :=
  ⟨by decide, by
    obtain ⟨u, hu, -, -, -, -, hnotes, hfresh, -, -, -⟩ :=
      saveCurrentNote_upserts [] none ⟨"id1", "", "", 3, 3⟩ "Groceries" "<p>milk</p>" 7 true true
        (by decide)
    rw [hnotes, hfresh (by simp), hu]
    decide⟩

/-! ### C4: backend write failure handling (corrected) -/

/-- Counterexample to C4 as stated: at this concrete input the backend
write fails (`errorLogged = true`, the persisted collection is still
`none`), yet the user-visible status reads "Note saved successfully!" —
so the caller is told the operation succeeded although the backend write
failed, and no failure signal exists anywhere in the outcome. -/
theorem save_write_failure_cex :
    (saveCurrentNote [] none ⟨"n1", "", "", 0, 0⟩ "Title" "Body" 5 true false).status
        = some "Note saved successfully!" ∧
    (saveCurrentNote [] none ⟨"n1", "", "", 0, 0⟩ "Title" "Body" 5 true false).errorLogged
        = true ∧
    (saveCurrentNote [] none ⟨"n1", "", "", 0, 0⟩ "Title" "Body" 5 true false).stored = none ∧
    (saveCurrentNote [] none ⟨"n1", "", "", 0, 0⟩ "Title" "Body" 5 true false).notes
        = [⟨"n1", "Title", "Body", 0, 5⟩] := by
  decide

/-- C4 amended: for save and delete, a persistence-backend write error is
caught inside the store write and logged, no exception propagates to the
caller, and the backend keeps its previous content; the in-memory
collection keeps the updated (post-operation) state; but the failure is
not reported to the caller: the operation shows the same success status
as a successful write. -/
theorem save_delete_write_failure :
    (∀ (notes : List Note) (stored : Option (List Note)) (cur : Note)
        (titleInput editorInput : String) (now : Nat) (fb : Bool),
      ¬(jsTrim titleInput = "" ∧ jsTrim editorInput = "") →
      (saveCurrentNote notes stored cur titleInput editorInput now fb false).errorLogged = true ∧
      (saveCurrentNote notes stored cur titleInput editorInput now fb false).stored = stored ∧
      (saveCurrentNote notes stored cur titleInput editorInput now fb false).notes
        = (saveCurrentNote notes stored cur titleInput editorInput now fb true).notes ∧
      (saveCurrentNote notes stored cur titleInput editorInput now fb false).status
        = (saveCurrentNote notes stored cur titleInput editorInput now fb true).status) ∧
    (∀ (notes : List Note) (stored : Option (List Note)) (noteId : String),
      (deleteNote notes stored noteId true false).errorLogged = true ∧
      (deleteNote notes stored noteId true false).stored = stored ∧
      (deleteNote notes stored noteId true false).notes
        = notes.filter (fun n => n.id != noteId) ∧
      (deleteNote notes stored noteId true false).status = some "Note deleted") := by
  constructor
  · intro notes stored cur titleInput editorInput now fb h
    refine ⟨?_, ?_, ?_, ?_⟩ <;> simp [saveCurrentNote, if_neg h, saveNotesOp]
  · intro notes stored noteId
    refine ⟨?_, ?_, ?_, ?_⟩ <;> simp [deleteNote, saveNotesOp]

theorem save_delete_write_failure_witness :
    ¬(jsTrim "T" = "" ∧ jsTrim "C" = "") ∧
    (saveCurrentNote [] (some []) ⟨"a", "", "", 0, 0⟩ "T" "C" 9 true false).errorLogged = true ∧
    (saveCurrentNote [] (some []) ⟨"a", "", "", 0, 0⟩ "T" "C" 9 true false).stored = some [] :=
  ⟨by decide,
    (save_delete_write_failure.1 [] (some []) ⟨"a", "", "", 0, 0⟩ "T" "C" 9 true
      (by decide)).1,
    (save_delete_write_failure.1 [] (some []) ⟨"a", "", "", 0, 0⟩ "T" "C" 9 true
      (by decide)).2.1⟩

/-! ### C9: timestamp invariant -/

/-- C9: every note produced by `createNewNote` or the background capture
flow has `created = modified`; a successful `saveCurrentNote` only stamps
`modified` with the current time and never touches `created`, so whenever
the current time is at or after the edited note's creation time and the
collection satisfies `created ≤ modified`, the collection after the save
still satisfies `created ≤ modified` for every note. -/
theorem note_timestamps_invariant :
    (∀ newId now, (createNewNote newId now).created = (createNewNote newId now).modified) ∧
    (∀ (sel t u newId : String) (now : Nat) (n : CaptureNote),
      saveSelectedText sel t u newId now = some n → n.created = n.modified) ∧
    (∀ (notes : List Note) (stored : Option (List Note)) (cur : Note)
        (titleInput editorInput : String) (now : Nat) (fb w : Bool),
      cur.created ≤ now → (∀ m ∈ notes, m.created ≤ m.modified) →
      ∀ m ∈ (saveCurrentNote notes stored cur titleInput editorInput now fb w).notes,
        m.created ≤ m.modified) ∧
    (∀ (notes : List Note) (stored : Option (List Note)) (cur : Note)
        (titleInput editorInput : String) (now : Nat) (fb w : Bool),
      ¬(jsTrim titleInput = "" ∧ jsTrim editorInput = "") →
      ∃ u : Note, u.created = cur.created ∧ u.modified = now ∧
        (saveCurrentNote notes stored cur titleInput editorInput now fb w).notes
          = upsertNote notes u) := by
  refine ⟨fun newId now => rfl, ?_, ?_, ?_⟩
  · intro sel t u newId now n hn
    by_cases hs : sel = ""
    · simp [saveSelectedText, hs] at hn
    · simp only [saveSelectedText, if_neg hs, Option.some.injEq] at hn
      subst hn
      rfl
  · intro notes stored cur titleInput editorInput now fb w h1 h2 m hm
    by_cases hc : jsTrim titleInput = "" ∧ jsTrim editorInput = ""
    · rw [show (saveCurrentNote notes stored cur titleInput editorInput now fb w).notes = notes
          from by simp [saveCurrentNote, hc.1, hc.2]] at hm
      exact h2 m hm
    · rw [show (saveCurrentNote notes stored cur titleInput editorInput now fb w).notes
          = upsertNote notes
            { cur with
                title := if jsTrim titleInput = "" then "Untitled Note" else jsTrim titleInput,
                content := jsTrim editorInput, modified := now }
          from by simp [saveCurrentNote, if_neg hc]] at hm
      rcases mem_upsertNote hm with rfl | hmem
      · simpa using h1
      · exact h2 m hmem
  · intro notes stored cur titleInput editorInput now fb w h
    exact ⟨{ cur with
        title := if jsTrim titleInput = "" then "Untitled Note" else jsTrim titleInput,
        content := jsTrim editorInput, modified := now },
      rfl, rfl, by simp [saveCurrentNote, if_neg h]⟩

theorem note_timestamps_invariant_witness :
    (saveSelectedText "hi" "Pg" "u" "i1" 4 = some
      ⟨"i1", "Selection from Pg",
        "<p>hi</p><br><p><em>Source: <a href=\"u\">Pg</a></em></p>",
        ["web-clip"], "web", 4, 4⟩) ∧
    ((⟨"i1", "Selection from Pg",
        "<p>hi</p><br><p><em>Source: <a href=\"u\">Pg</a></em></p>",
        ["web-clip"], "web", 4, 4⟩ : CaptureNote).created
      = (⟨"i1", "Selection from Pg",
          "<p>hi</p><br><p><em>Source: <a href=\"u\">Pg</a></em></p>",
          ["web-clip"], "web", 4, 4⟩ : CaptureNote).modified) ∧
    ((⟨"a", "T", "C", 1, 2⟩ : Note).created ≤ 5 ∧
      (∀ m ∈ ([⟨"b", "x", "y", 0, 3⟩] : List Note), m.created ≤ m.modified) ∧
      ∀ m ∈ (saveCurrentNote [⟨"b", "x", "y", 0, 3⟩] none ⟨"a", "T", "C", 1, 2⟩
          "T2" "C2" 5 true true).notes, m.created ≤ m.modified) ∧
    (¬(jsTrim "T2" = "" ∧ jsTrim "C2" = "") ∧
      ∃ u : Note, u.created = 1 ∧ u.modified = 5 ∧
        (saveCurrentNote [⟨"b", "x", "y", 0, 3⟩] none ⟨"a", "T", "C", 1, 2⟩
          "T2" "C2" 5 true true).notes = upsertNote [⟨"b", "x", "y", 0, 3⟩] u) :=
  ⟨by decide,
   note_timestamps_invariant.2.1 "hi" "Pg" "u" "i1" 4 _ (by decide),
   ⟨by decide, by decide,
    note_timestamps_invariant.2.2.1 [⟨"b", "x", "y", 0, 3⟩] none ⟨"a", "T", "C", 1, 2⟩
      "T2" "C2" 5 true true (by decide) (by decide)⟩,
   ⟨by decide,
    note_timestamps_invariant.2.2.2 [⟨"b", "x", "y", 0, 3⟩] none ⟨"a", "T", "C", 1, 2⟩
      "T2" "C2" 5 true true (by decide)⟩⟩

/-! ### C5: JSON export (`JSON.stringify(notes, null, 2)`) and parse-back -/

/-- JSON whitespace (space, tab, LF, CR), as skipped by `JSON.parse`. -/
def jsonWS (c : Char) : Bool :=
  c.toNat = 32 || c.toNat = 9 || c.toNat = 10 || c.toNat = 13

/-- Skip JSON whitespace. -/
def skipWS (l : List Char) : List Char := l.dropWhile jsonWS

/-- Lowercase hexadecimal digit, as `JSON.stringify` prints in `\u00xx`
escapes. -/
def hexDig (n : Nat) : Char :=
  match n with
  | 0 => '0' | 1 => '1' | 2 => '2' | 3 => '3' | 4 => '4' | 5 => '5' | 6 => '6' | 7 => '7'
  | 8 => '8' | 9 => '9' | 10 => 'a' | 11 => 'b' | 12 => 'c' | 13 => 'd' | 14 => 'e' | _ => 'f'

/-- Escape one character the way `JSON.stringify` quotes string values:
quote, backslash and the named control characters get two-character
escapes, the remaining control characters get `\u00xx`, and everything
else is copied verbatim. -/
def escChar (c : Char) : List Char :=
  if c = '"' then ['\\', '"']
  else if c = '\\' then ['\\', '\\']
  else if c = '\n' then ['\\', 'n']
  else if c = '\r' then ['\\', 'r']
  else if c = '\t' then ['\\', 't']
  else if c = '\x08' then ['\\', 'b']
  else if c = '\x0c' then ['\\', 'f']
  else if c.toNat < 32 then ['\\', 'u', '0', '0', hexDig (c.toNat / 16), hexDig (c.toNat % 16)]
  else [c]

/-- Escape every character of a list. -/
def escBody : List Char → List Char
  | [] => []
  | c :: t => escChar c ++ escBody t

/-- The quoted JSON string literal for `s`, as `JSON.stringify` prints it. -/
def escString (s : String) : List Char := '"' :: (escBody s.data ++ ['"'])

/-- Decimal digit character. -/
def digitCh (n : Nat) : Char :=
  match n with
  | 0 => '0' | 1 => '1' | 2 => '2' | 3 => '3' | 4 => '4'
  | 5 => '5' | 6 => '6' | 7 => '7' | 8 => '8' | _ => '9'

/-- Base-10 digits, little-endian, with explicit fuel so that the kernel
can evaluate it (the fuel is the number itself, which always suffices). -/
def digitsAuxL : Nat → Nat → List Nat
  | 0, _ => []
  | fuel + 1, n => if n = 0 then [] else n % 10 :: digitsAuxL fuel (n / 10)

/-- Base-10 digits of `n`, little-endian. -/
def natDigits (n : Nat) : List Nat := digitsAuxL n n

/-- Decimal representation of a natural number (the JSON number printed
for a `created` / `modified` field). -/
def natStrL (n : Nat) : List Char :=
  if n = 0 then ['0'] else ((natDigits n).map digitCh).reverse

/-- One `"key": "string value"` member of a printed note object, preceded
by the newline and the four-space indent `JSON.stringify` emits at array
depth 1 with indent width 2, and followed by `tail`. -/
def fieldStr (key v : String) (tail : List Char) : List Char :=
  "\n    ".data ++ (escString key ++ ':' :: ' ' :: (escString v ++ tail))

/-- One `"key": number` member of a printed note object, analogous to
`fieldStr`. -/
def fieldNat (key : String) (m : Nat) (tail : List Char) : List Char :=
  "\n    ".data ++ (escString key ++ ':' :: ' ' :: (natStrL m ++ tail))

/-- The characters `JSON.stringify` produces for one note inside the
exported array at indent width 2: the five fields in declaration order at
indent 4, separated by commas, the closing brace at indent 2. -/
def printNoteL (n : Note) : List Char :=
  '\x7b' :: fieldStr "id" n.id (',' :: fieldStr "title" n.title (',' ::
    fieldStr "content" n.content (',' :: fieldNat "created" n.created (',' ::
    fieldNat "modified" n.modified "\n  \x7d".data))))

/-- The notes of the exported array, separated by `",\n  "`. -/
def sepElemsL : List Note → List Char
  | [] => []
  | [n] => printNoteL n
  | n :: m :: t => printNoteL n ++ ',' :: '\n' :: ' ' :: ' ' :: sepElemsL (m :: t)

/-- `JSON.stringify(notes, null, 2)`: the structured-data export content
built by `exportAllNotes` for the `json` format. -/
def stringifyNotes (notes : List Note) : String :=
  match notes with
  | [] => "[]"
  | n :: t => ⟨'[' :: '\n' :: ' ' :: ' ' :: (sepElemsL (n :: t) ++ '\n' :: ']' :: [])⟩

/-- Unescape a two-character JSON escape (`JSON.parse`). -/
def unescChar (c : Char) : Option Char :=
  if c = '"' then some '"'
  else if c = '\\' then some '\\'
  else if c = '/' then some '/'
  else if c = 'n' then some '\n'
  else if c = 'r' then some '\r'
  else if c = 't' then some '\t'
  else if c = 'b' then some '\x08'
  else if c = 'f' then some '\x0c'
  else none

/-- Value of a hexadecimal digit character. -/
def hexVal (c : Char) : Option Nat :=
  if 48 ≤ c.toNat && c.toNat ≤ 57 then some (c.toNat - 48)
  else if 97 ≤ c.toNat && c.toNat ≤ 102 then some (c.toNat - 87)
  else if 65 ≤ c.toNat && c.toNat ≤ 70 then some (c.toNat - 55)
  else none

/-- Prepend a decoded character to the result of a string-body scan. -/
def consFst (d : Char) : Option (List Char × List Char) → Option (List Char × List Char)
  | some (cs, r) => some (d :: cs, r)
  | none => none

/-- Scan the body of a JSON string literal (after the opening quote) up to
the closing quote, decoding escapes as `JSON.parse` does; returns the
decoded characters and the input after the closing quote. -/
def parseStrBody : List Char → Option (List Char × List Char)
  | [] => none
  | c :: rest =>
    if c = '"' then some ([], rest)
    else if c = '\\' then
      match rest with
      | [] => none
      | e :: r =>
        if e = 'u' then
          match r with
          | h1 :: h2 :: h3 :: h4 :: r2 =>
            match hexVal h1, hexVal h2, hexVal h3, hexVal h4 with
            | some v1, some v2, some v3, some v4 =>
              consFst (Char.ofNat (4096 * v1 + 256 * v2 + 16 * v3 + v4)) (parseStrBody r2)
            | _, _, _, _ => none
          | _ => none
        else
          match unescChar e with
          | some d => consFst d (parseStrBody r)
          | none => none
    else
      consFst c (parseStrBody rest)

/-- Repack a scanned string body as a `String`. -/
def mkStr : Option (List Char × List Char) → Option (String × List Char)
  | some (cs, r) => some (⟨cs⟩, r)
  | none => none

/-- Scan a JSON string literal (expects the opening quote). -/
def parseJStr : List Char → Option (String × List Char)
  | [] => none
  | c :: rest => if c = '"' then mkStr (parseStrBody rest) else none

/-- Decimal digit test. -/
def isDigitCh (c : Char) : Bool := 48 ≤ c.toNat && c.toNat ≤ 57

/-- Value of a decimal digit character. -/
def chDigitVal (c : Char) : Nat := c.toNat - 48

/-- Check that the input does not begin with a decimal digit (used to
state that a number literal ends where a printed number ends). -/
def noLeadingDigit : List Char → Bool
  | [] => true
  | c :: _ => !isDigitCh c

/-- Scan a non-negative JSON integer (one or more decimal digits). -/
def parseNatL (l : List Char) : Option (Nat × List Char) :=
  let ds := l.takeWhile isDigitCh
  if ds.isEmpty then none
  else some (ds.foldl (fun acc c => 10 * acc + chDigitVal c) 0, l.dropWhile isDigitCh)

/-- Expect a colon (after optional whitespace). -/
def expectColon (l : List Char) : Option (List Char) :=
  match skipWS l with
  | ':' :: r => some r
  | _ => none

/-- Scan an object key: a string literal equal to `key`, then a colon. -/
def parseKeyField (key : String) (l : List Char) : Option (List Char) :=
  (parseJStr (skipWS l)).bind (fun kr => if kr.1 = key then expectColon kr.2 else none)

/-- Scan a `"key": "string"` member. -/
def parseStrField (key : String) (l : List Char) : Option (String × List Char) :=
  (parseKeyField key l).bind (fun r => parseJStr (skipWS r))

/-- Scan a `"key": number` member. -/
def parseNatField (key : String) (l : List Char) : Option (Nat × List Char) :=
  (parseKeyField key l).bind (fun r => parseNatL (skipWS r))

/-- Expect a comma (after optional whitespace). -/
def expectComma (l : List Char) : Option (List Char) :=
  match skipWS l with
  | ',' :: r => some r
  | _ => none

/-- Scan the five members of a note object (after the opening brace), in
export order, then the closing brace. -/
def parseNoteFields (r0 : List Char) : Option (Note × List Char) := do
  let (idv, r1) ← parseStrField "id" r0
  let r2 ← expectComma r1
  let (tv, r3) ← parseStrField "title" r2
  let r4 ← expectComma r3
  let (cv, r5) ← parseStrField "content" r4
  let r6 ← expectComma r5
  let (crv, r7) ← parseNatField "created" r6
  let r8 ← expectComma r7
  let (mv, r9) ← parseNatField "modified" r8
  match skipWS r9 with
  | '\x7d' :: rest =>
    some ({ id := idv, title := tv, content := cv, created := crv, modified := mv }, rest)
  | _ => none

/-- Scan one note object of the exported document: the five members in
export order between braces, whitespace allowed everywhere `JSON.parse`
allows it. -/
def parseNoteObj (l : List Char) : Option (Note × List Char) :=
  match skipWS l with
  | '\x7b' :: r0 => parseNoteFields r0
  | _ => none

/-- Scan the comma-separated note objects of a non-empty array up to and
including the closing bracket.  The fuel argument bounds the number of
elements; the top-level entry point passes the input length, which always
suffices because every element consumes at least one character. -/
def parseNoteSeq : Nat → List Char → Option (List Note × List Char)
  | 0, _ => none
  | fuel + 1, input =>
    match parseNoteObj input with
    | none => none
    | some (n, rest) =>
      match skipWS rest with
      | ',' :: r2 =>
        match parseNoteSeq fuel r2 with
        | some (ns, r3) => some (n :: ns, r3)
        | none => none
      | ']' :: r2 => some ([n], r2)
      | _ => none

/-- Parse an exported structured-data document (as characters) back into
a note collection: a JSON array of note objects with nothing but
whitespace after it. -/
def parseNotesL (l : List Char) : Option (List Note) :=
  match skipWS l with
  | '[' :: r =>
    match skipWS r with
    | ']' :: r2 => if (skipWS r2).isEmpty then some [] else none
    | _ =>
      match parseNoteSeq (r.length + 1) r with
      | some (ns, r3) => if (skipWS r3).isEmpty then some ns else none
      | none => none
  | _ => none

/-- Parse an exported structured-data document back into a note
collection (the shape `JSON.parse` accepts for the export output,
decoded to notes field by field). -/
def parseNotes (s : String) : Option (List Note) := parseNotesL s.data

/-! #### Round trip of the string-literal layer -/

theorem hexVal_hexDig : ∀ v < 16, hexVal (hexDig v) = some v := by decide

theorem parseStrBody_escBody :
    ∀ l rest : List Char, parseStrBody (escBody l ++ '"' :: rest) = some (l, rest) := by
  intro l
  induction l with
  | nil =>
    intro rest
    rw [parseStrBody.eq_def]
    rfl
  | cons c t ih =>
    intro rest
    have e : escBody (c :: t) ++ '"' :: rest = escChar c ++ (escBody t ++ '"' :: rest) := by
      simp [escBody]
    rw [e]
    by_cases h1 : c = '"'
    · subst h1
      rw [parseStrBody.eq_def]
      show consFst '"' (parseStrBody (escBody t ++ '"' :: rest)) = _
      rw [ih rest]
      rfl
    · by_cases h2 : c = '\\'
      · subst h2
        rw [parseStrBody.eq_def]
        show consFst '\\' (parseStrBody (escBody t ++ '"' :: rest)) = _
        rw [ih rest]
        rfl
      · by_cases h3 : c = '\n'
        · subst h3
          rw [parseStrBody.eq_def]
          show consFst '\n' (parseStrBody (escBody t ++ '"' :: rest)) = _
          rw [ih rest]
          rfl
        · by_cases h4 : c = '\r'
          · subst h4
            rw [parseStrBody.eq_def]
            show consFst '\r' (parseStrBody (escBody t ++ '"' :: rest)) = _
            rw [ih rest]
            rfl
          · by_cases h5 : c = '\t'
            · subst h5
              rw [parseStrBody.eq_def]
              show consFst '\t' (parseStrBody (escBody t ++ '"' :: rest)) = _
              rw [ih rest]
              rfl
            · by_cases h6 : c = '\x08'
              · subst h6
                rw [parseStrBody.eq_def]
                show consFst '\x08' (parseStrBody (escBody t ++ '"' :: rest)) = _
                rw [ih rest]
                rfl
              · by_cases h7 : c = '\x0c'
                · subst h7
                  rw [parseStrBody.eq_def]
                  show consFst '\x0c' (parseStrBody (escBody t ++ '"' :: rest)) = _
                  rw [ih rest]
                  rfl
                · by_cases h8 : c.toNat < 32
                  · have hc : escChar c
                        = ['\\', 'u', '0', '0', hexDig (c.toNat / 16), hexDig (c.toNat % 16)] := by
                      unfold escChar
                      rw [if_neg h1, if_neg h2, if_neg h3, if_neg h4, if_neg h5, if_neg h6,
                        if_neg h7, if_pos h8]
                    rw [hc, parseStrBody.eq_def]
                    show (match hexVal '0', hexVal '0', hexVal (hexDig (c.toNat / 16)),
                        hexVal (hexDig (c.toNat % 16)) with
                      | some v1, some v2, some v3, some v4 =>
                        consFst (Char.ofNat (4096 * v1 + 256 * v2 + 16 * v3 + v4))
                          (parseStrBody (escBody t ++ '"' :: rest))
                      | _, _, _, _ => none) = _
                    rw [hexVal_hexDig (c.toNat / 16) (by omega),
                      hexVal_hexDig (c.toNat % 16) (by omega)]
                    show consFst (Char.ofNat (4096 * 0 + 256 * 0 + 16 * (c.toNat / 16)
                        + c.toNat % 16)) (parseStrBody (escBody t ++ '"' :: rest)) = _
                    rw [show 4096 * 0 + 256 * 0 + 16 * (c.toNat / 16) + c.toNat % 16 = c.toNat
                        from by omega]
                    rw [Char.ofNat_toNat, ih rest]
                    rfl
                  · have hc : escChar c = [c] := by
                      unfold escChar
                      rw [if_neg h1, if_neg h2, if_neg h3, if_neg h4, if_neg h5, if_neg h6,
                        if_neg h7, if_neg h8]
                    rw [hc]
                    simp only [List.cons_append, List.nil_append]
                    rw [parseStrBody.eq_def]
                    simp only []
                    rw [if_neg h1, if_neg h2, ih rest]
                    rfl

theorem parseJStr_escString (s : String) (rest : List Char) :
    parseJStr (escString s ++ rest) = some (s, rest) := by
  have e : escString s ++ rest = '"' :: (escBody s.data ++ '"' :: rest) := by
    simp [escString]
  rw [e]
  show mkStr (parseStrBody (escBody s.data ++ '"' :: rest)) = some (s, rest)
  rw [parseStrBody_escBody]
  rfl

/-! #### Round trip of the number layer -/

theorem digitsAuxL_eq : ∀ fuel n : Nat, n ≤ fuel → digitsAuxL fuel n = Nat.digits 10 n := by
  intro fuel
  induction fuel with
  | zero =>
    intro n hn
    have h0 : n = 0 := Nat.le_zero.1 hn
    subst h0
    rw [Nat.digits_zero]
    rfl
  | succ f ih =>
    intro n hn
    by_cases h0 : n = 0
    · subst h0; rw [Nat.digits_zero]; rfl
    · have hdiv : n / 10 ≤ f := by
        have := Nat.div_lt_self (Nat.pos_of_ne_zero h0) (by norm_num : 1 < 10)
        omega
      show (if n = 0 then [] else n % 10 :: digitsAuxL f (n / 10)) = _
      rw [if_neg h0, ih (n / 10) hdiv,
        Nat.digits_def' (by norm_num : 1 < 10) (Nat.pos_of_ne_zero h0)]

theorem natDigits_eq (n : Nat) : natDigits n = Nat.digits 10 n :=
  digitsAuxL_eq n n (Nat.le_refl n)

theorem digitCh_facts : ∀ d < 10, chDigitVal (digitCh d) = d ∧ isDigitCh (digitCh d) = true := by
  decide

theorem natStrL_all_digits (n : Nat) : ∀ c ∈ natStrL n, isDigitCh c = true := by
  intro c hc
  unfold natStrL at hc
  split at hc
  · simp at hc; subst hc; decide
  · rw [List.mem_reverse] at hc
    obtain ⟨d, hd, rfl⟩ := List.mem_map.1 hc
    rw [natDigits_eq] at hd
    exact (digitCh_facts d (Nat.digits_lt_base (by norm_num) hd)).2

theorem natStrL_ne_nil (n : Nat) : natStrL n ≠ [] := by
  unfold natStrL
  split
  · simp
  · next h =>
    intro hcontra
    exact (Nat.digits_ne_nil_iff_ne_zero.2 h)
      (by rw [← natDigits_eq]
          exact List.map_eq_nil_iff.1 (List.reverse_eq_nil_iff.1 hcontra))

theorem takeWhile_append_all {α : Type} {p : α → Bool} :
    ∀ A B : List α, (∀ c ∈ A, p c = true) →
      (A ++ B).takeWhile p = A ++ B.takeWhile p := by
  intro A B
  induction A with
  | nil => intro _; rfl
  | cons a t ih =>
    intro h
    rw [List.cons_append, List.takeWhile_cons, if_pos (h a (by simp)),
      ih (fun c hc => h c (by simp [hc])), List.cons_append]

theorem dropWhile_append_all {α : Type} {p : α → Bool} :
    ∀ A B : List α, (∀ c ∈ A, p c = true) → (A ++ B).dropWhile p = B.dropWhile p := by
  intro A B
  induction A with
  | nil => intro _; rfl
  | cons a t ih =>
    intro h
    rw [List.cons_append, List.dropWhile_cons, if_pos (h a (by simp))]
    exact ih (fun c hc => h c (by simp [hc]))

theorem foldl_digits_val :
    ∀ ds : List Nat, (∀ d ∈ ds, d < 10) → ∀ acc : Nat,
      List.foldl (fun a c => 10 * a + chDigitVal c) acc ((ds.map digitCh).reverse)
        = acc * 10 ^ ds.length + Nat.ofDigits 10 ds := by
  intro ds
  induction ds with
  | nil => intro _ acc; simp [Nat.ofDigits_nil]
  | cons d t ih =>
    intro h acc
    rw [List.map_cons, List.reverse_cons, List.foldl_append,
      ih (fun x hx => h x (by simp [hx])) acc]
    simp only [List.foldl_cons, List.foldl_nil]
    rw [(digitCh_facts d (h d (by simp))).1, Nat.ofDigits_cons, List.length_cons, pow_succ]
    ring

theorem foldl_natStrL (n : Nat) :
    List.foldl (fun a c => 10 * a + chDigitVal c) 0 (natStrL n) = n := by
  unfold natStrL
  split
  · next h0 => subst h0; rfl
  · rw [natDigits_eq,
      foldl_digits_val (Nat.digits 10 n) (fun d hd => Nat.digits_lt_base (by norm_num) hd) 0]
    simp [Nat.ofDigits_digits]

theorem parseNatL_natStrL (n : Nat) (rest : List Char) (h : noLeadingDigit rest = true) :
    parseNatL (natStrL n ++ rest) = some (n, rest) := by
  have hall := natStrL_all_digits n
  have h1 : rest.takeWhile isDigitCh = [] := by
    cases rest with
    | nil => rfl
    | cons c r =>
      simp only [noLeadingDigit, Bool.not_eq_true'] at h
      rw [List.takeWhile_cons, if_neg (by simp [h])]
  have h2 : rest.dropWhile isDigitCh = rest := by
    cases rest with
    | nil => rfl
    | cons c r =>
      simp only [noLeadingDigit, Bool.not_eq_true'] at h
      rw [List.dropWhile_cons, if_neg (by simp [h])]
  unfold parseNatL
  rw [takeWhile_append_all _ _ hall, dropWhile_append_all _ _ hall, h1, h2, List.append_nil]
  rw [if_neg (by simpa [List.isEmpty_iff] using natStrL_ne_nil n), foldl_natStrL]

/-! #### Whitespace and field-template lemmas -/

theorem skipWS_cons_not {c : Char} (h : jsonWS c = false) (X : List Char) :
    skipWS (c :: X) = c :: X := by
  unfold skipWS
  rw [List.dropWhile_cons, if_neg (by simp [h])]

theorem skipWS_cons_ws {c : Char} (h : jsonWS c = true) (X : List Char) :
    skipWS (c :: X) = skipWS X := by
  unfold skipWS
  rw [List.dropWhile_cons, if_pos (by simp [h])]

theorem skipWS_append_ws : ∀ ws : List Char, (∀ c ∈ ws, jsonWS c = true) →
    ∀ X : List Char, skipWS (ws ++ X) = skipWS X := by
  intro ws
  induction ws with
  | nil => intro _ X; rfl
  | cons c t ih =>
    intro h X
    rw [List.cons_append, skipWS_cons_ws (h c (by simp))]
    exact ih (fun d hd => h d (by simp [hd])) X

theorem skipWS_escString (s : String) (X : List Char) :
    skipWS (escString s ++ X) = escString s ++ X := by
  have e : escString s ++ X = '"' :: (escBody s.data ++ '"' :: X) := by
    simp [escString]
  rw [e, skipWS_cons_not (by decide)]

theorem skipWS_natStrL (n : Nat) (X : List Char) :
    skipWS (natStrL n ++ X) = natStrL n ++ X := by
  obtain ⟨c, cs, hc⟩ := List.exists_cons_of_ne_nil (natStrL_ne_nil n)
  have hd : isDigitCh c = true := natStrL_all_digits n c (by rw [hc]; simp)
  have hws : jsonWS c = false := by
    simp only [isDigitCh, Bool.and_eq_true, decide_eq_true_eq] at hd
    simp only [jsonWS, Bool.or_eq_false_iff, decide_eq_false_iff_not]
    omega
  rw [hc, List.cons_append, skipWS_cons_not hws]

theorem parseKeyField_template (key : String) (ws : List Char)
    (hws : ∀ c ∈ ws, jsonWS c = true) (C : List Char) :
    parseKeyField key (ws ++ (escString key ++ ':' :: C)) = some C := by
  unfold parseKeyField
  rw [skipWS_append_ws ws hws, skipWS_escString, parseJStr_escString]
  show (if key = key then expectColon (':' :: C) else none) = some C
  rw [if_pos rfl]
  unfold expectColon
  rw [skipWS_cons_not (by decide)]
  rfl

theorem parseStrField_template (key v : String) (ws : List Char)
    (hws : ∀ c ∈ ws, jsonWS c = true) (Y : List Char) :
    parseStrField key (ws ++ (escString key ++ ':' :: ' ' :: (escString v ++ Y)))
      = some (v, Y) := by
  unfold parseStrField
  rw [parseKeyField_template key ws hws (' ' :: (escString v ++ Y))]
  show parseJStr (skipWS (' ' :: (escString v ++ Y))) = some (v, Y)
  rw [skipWS_cons_ws (by decide), skipWS_escString, parseJStr_escString]

theorem parseNatField_template (key : String) (m : Nat) (ws : List Char)
    (hws : ∀ c ∈ ws, jsonWS c = true) (Y : List Char) (hY : noLeadingDigit Y = true) :
    parseNatField key (ws ++ (escString key ++ ':' :: ' ' :: (natStrL m ++ Y)))
      = some (m, Y) := by
  unfold parseNatField
  rw [parseKeyField_template key ws hws (' ' :: (natStrL m ++ Y))]
  show parseNatL (skipWS (' ' :: (natStrL m ++ Y))) = some (m, Y)
  rw [skipWS_cons_ws (by decide), skipWS_natStrL, parseNatL_natStrL m Y hY]

theorem expectComma_comma (X : List Char) : expectComma (',' :: X) = some X := by
  unfold expectComma
  rw [skipWS_cons_not (by decide)]
  rfl

/-! #### Round trip of one note object -/

theorem fieldStr_append (key v : String) (t rest : List Char) :
    fieldStr key v t ++ rest = fieldStr key v (t ++ rest) := by
  simp [fieldStr, List.append_assoc, List.cons_append]

theorem fieldNat_append (key : String) (m : Nat) (t rest : List Char) :
    fieldNat key m t ++ rest = fieldNat key m (t ++ rest) := by
  simp [fieldNat, List.append_assoc, List.cons_append]

theorem parseStrField_fieldStr (key v : String) (Y : List Char) :
    parseStrField key (fieldStr key v Y) = some (v, Y) :=
  parseStrField_template key v "\n    ".data (by decide) Y

theorem parseNatField_fieldNat (key : String) (m : Nat) (Y : List Char)
    (hY : noLeadingDigit Y = true) :
    parseNatField key (fieldNat key m Y) = some (m, Y) :=
  parseNatField_template key m "\n    ".data (by decide) Y hY

theorem parseNoteObj_printNote (n : Note) (rest : List Char) :
    parseNoteObj (printNoteL n ++ rest) = some (n, rest) := by
  have e : printNoteL n ++ rest
      = '\x7b' :: fieldStr "id" n.id (',' :: fieldStr "title" n.title (',' ::
          fieldStr "content" n.content (',' :: fieldNat "created" n.created (',' ::
          fieldNat "modified" n.modified ('\n' :: ' ' :: ' ' :: '\x7d' :: rest))))) := by
    simp only [printNoteL, List.cons_append, fieldStr_append, fieldNat_append]
    rfl
  rw [e]
  unfold parseNoteObj
  rw [skipWS_cons_not (by decide)]
  show parseNoteFields (fieldStr "id" n.id (',' :: fieldStr "title" n.title (',' ::
      fieldStr "content" n.content (',' :: fieldNat "created" n.created (',' ::
      fieldNat "modified" n.modified ('\n' :: ' ' :: ' ' :: '\x7d' :: rest))))))
    = some (n, rest)
  unfold parseNoteFields
  rw [parseStrField_fieldStr]
  simp only [Option.bind_eq_bind, Option.some_bind]
  rw [expectComma_comma]
  simp only [Option.bind_eq_bind, Option.some_bind]
  rw [parseStrField_fieldStr]
  simp only [Option.bind_eq_bind, Option.some_bind]
  rw [expectComma_comma]
  simp only [Option.bind_eq_bind, Option.some_bind]
  rw [parseStrField_fieldStr]
  simp only [Option.bind_eq_bind, Option.some_bind]
  rw [expectComma_comma]
  simp only [Option.bind_eq_bind, Option.some_bind]
  rw [parseNatField_fieldNat "created" n.created
    (',' :: fieldNat "modified" n.modified ('\n' :: ' ' :: ' ' :: '\x7d' :: rest)) rfl]
  simp only [Option.bind_eq_bind, Option.some_bind]
  rw [expectComma_comma]
  simp only [Option.bind_eq_bind, Option.some_bind]
  rw [parseNatField_fieldNat "modified" n.modified ('\n' :: ' ' :: ' ' :: '\x7d' :: rest) rfl]
  simp only [Option.bind_eq_bind, Option.some_bind]
  rw [skipWS_cons_ws (by decide), skipWS_cons_ws (by decide), skipWS_cons_ws (by decide),
    skipWS_cons_not (by decide)]
  rfl

/-! #### Round trip of the array layer -/

theorem parseNoteObj_ws (X : List Char) :
    parseNoteObj ('\n' :: ' ' :: ' ' :: X) = parseNoteObj X := by
  unfold parseNoteObj
  rw [skipWS_cons_ws (by decide), skipWS_cons_ws (by decide), skipWS_cons_ws (by decide)]

theorem parseNoteSeq_ws (f : Nat) (X : List Char) :
    parseNoteSeq f ('\n' :: ' ' :: ' ' :: X) = parseNoteSeq f X := by
  cases f with
  | zero => rfl
  | succ g =>
    simp only [parseNoteSeq]
    rw [parseNoteObj_ws]

theorem printNoteL_length_pos (n : Note) : 1 ≤ (printNoteL n).length := by
  obtain ⟨X, hX⟩ : ∃ X, printNoteL n = '\x7b' :: X := ⟨_, rfl⟩
  rw [hX]
  simp

theorem sepElemsL_cons_head (n : Note) (t : List Note) :
    ∃ X, sepElemsL (n :: t) = '\x7b' :: X := by
  cases t with
  | nil => exact ⟨_, rfl⟩
  | cons m u => exact ⟨_, rfl⟩

theorem sepElemsL_length : ∀ ns : List Note, ns.length ≤ (sepElemsL ns).length := by
  intro ns
  induction ns with
  | nil => simp [sepElemsL]
  | cons n t ih =>
    cases t with
    | nil => simpa [sepElemsL] using printNoteL_length_pos n
    | cons m u =>
      have h1 := printNoteL_length_pos n
      simp only [sepElemsL, List.length_append, List.length_cons] at *
      omega

theorem parseNoteSeq_sep :
    ∀ (ns : List Note), ns ≠ [] → ∀ fuel : Nat, ns.length ≤ fuel →
      ∀ rest : List Char,
        parseNoteSeq fuel (sepElemsL ns ++ '\n' :: ']' :: rest) = some (ns, rest) := by
  intro ns
  induction ns with
  | nil => intro h; exact absurd rfl h
  | cons n t ih =>
    intro _ fuel hf rest
    cases fuel with
    | zero => simp at hf
    | succ g =>
      cases t with
      | nil =>
        simp only [parseNoteSeq, sepElemsL]
        rw [parseNoteObj_printNote n ('\n' :: ']' :: rest)]
        simp only []
        rw [skipWS_cons_ws (by decide), skipWS_cons_not (by decide)]
        rfl
      | cons m u =>
        have e : sepElemsL (n :: m :: u) ++ '\n' :: ']' :: rest
            = printNoteL n ++ (',' :: '\n' :: ' ' :: ' '
              :: (sepElemsL (m :: u) ++ '\n' :: ']' :: rest)) := by
          simp [sepElemsL]
        simp only [parseNoteSeq]
        rw [e, parseNoteObj_printNote n]
        simp only []
        rw [skipWS_cons_not (by decide)]
        simp only []
        rw [parseNoteSeq_ws, ih (by simp) g (by simpa using Nat.le_of_succ_le_succ hf) rest]

/-! #### C5 theorem -/

/-- C5: exporting a note collection in the structured-data format
(`JSON.stringify(notes, null, 2)`, the `json` branch of `exportAllNotes`)
and parsing the result back yields a collection equal field-for-field to
the original. -/
theorem json_roundtrip (ns : List Note) : parseNotes (stringifyNotes ns) = some ns := by
  cases ns with
  | nil => rfl
  | cons n t =>
    show parseNotesL ('[' :: '\n' :: ' ' :: ' ' :: (sepElemsL (n :: t) ++ '\n' :: ']' :: []))
      = some (n :: t)
    obtain ⟨X, hX⟩ := sepElemsL_cons_head n t
    unfold parseNotesL
    rw [skipWS_cons_not (by decide)]
    simp only []
    rw [skipWS_cons_ws (by decide), skipWS_cons_ws (by decide), skipWS_cons_ws (by decide)]
    rw [hX, List.cons_append, skipWS_cons_not (by decide)]
    rw [parseNoteSeq_ws]
    rw [show ('\x7b' :: (X ++ ['\n', ']']) : List Char)
        = sepElemsL (n :: t) ++ '\n' :: ']' :: [] from by rw [hX, List.cons_append]]
    rw [parseNoteSeq_sep (n :: t) (by simp) _
      (by
        have h1 := sepElemsL_length (n :: t)
        simp only [List.length_cons, List.length_append] at *
        omega) []]
    rw [hX, List.cons_append]
    rfl

/-! ### C6: markup → lightweight-markup conversion (`htmlToMarkdown`) -/

/-- Characters the JavaScript regex `.` does not match (LF, CR, LS, PS);
a lazy `(.*?)` group in the substitution patterns cannot span them. -/
def dotNoMatch (c : Char) : Bool :=
  c.toNat = 10 || c.toNat = 13 || c.toNat = 8232 || c.toNat = 8233

/-- Find the first occurrence of `pat`; returns the part before the
occurrence and the part after it. -/
def findSplit (pat : List Char) : List Char → Option (List Char × List Char)
  | [] => none
  | c :: t =>
    if startsL (c :: t) pat then some ([], (c :: t).drop pat.length)
    else match findSplit pat t with
      | some (b, r) => some (c :: b, r)
      | none => none

/-- One global regex substitution `/<open>(.*?)<\/close>/g → pre$1post`,
scanned left to right as the JavaScript engine does: at an occurrence of
the opening tag the lazy group ends at the first occurrence of the
closing tag and cannot contain characters `.` does not match; when no
such match exists the opening tag is kept literally and scanning resumes
after it.  The fuel is the input length, which suffices because every
step consumes at least one character. -/
def replacePairF (openT closeT pre post : List Char) : Nat → List Char → List Char
  | 0, l => l
  | fuel + 1, l =>
    if startsL l openT && !openT.isEmpty then
      match findSplit closeT (l.drop openT.length) with
      | some (inner, rest) =>
        if inner.all (fun c => !dotNoMatch c) then
          pre ++ inner ++ post ++ replacePairF openT closeT pre post fuel rest
        else openT ++ replacePairF openT closeT pre post fuel (l.drop openT.length)
      | none => openT ++ replacePairF openT closeT pre post fuel (l.drop openT.length)
    else
      match l with
      | [] => []
      | c :: t => c :: replacePairF openT closeT pre post fuel t

/-- One global substitution of a tag pair. -/
def replacePair (openT closeT pre post : List Char) (l : List Char) : List Char :=
  replacePairF openT closeT pre post l.length l

/-- One global plain-string substitution `/pat/g → rep`. -/
def replacePlainF (pat rep : List Char) : Nat → List Char → List Char
  | 0, l => l
  | fuel + 1, l =>
    if startsL l pat && !pat.isEmpty then
      rep ++ replacePlainF pat rep fuel (l.drop pat.length)
    else
      match l with
      | [] => []
      | c :: t => c :: replacePlainF pat rep fuel t

/-- One global plain-string substitution. -/
def replacePlain (pat rep : List Char) (l : List Char) : List Char :=
  replacePlainF pat rep l.length l

/-- After a literal `<br`: optional whitespace, an optional slash, then
`>` (the tail of the `/<br\s*\/?>/g` pattern). -/
def brTail (l : List Char) : Option (List Char) :=
  match l.dropWhile jsWS with
  | '/' :: '>' :: rest => some rest
  | '>' :: rest => some rest
  | _ => none

/-- The `/<br\s*\/?>/g → "\n"` substitution. -/
def brStepF : Nat → List Char → List Char
  | 0, l => l
  | fuel + 1, l =>
    if startsL l "<br".data then
      match brTail (l.drop 3) with
      | some rest => '\n' :: brStepF fuel rest
      | none => '<' :: 'b' :: 'r' :: brStepF fuel (l.drop 3)
    else
      match l with
      | [] => []
      | c :: t => c :: brStepF fuel t

/-- The `/<br\s*\/?>/g → "\n"` substitution, fuelled by input length. -/
def brStep (l : List Char) : List Char := brStepF l.length l

/-- The final `/<[^>]*>/g → ""` substitution: strip every remaining tag
(a `<`, characters other than `>`, then `>`; a `<` never followed by `>`
stays in place). -/
def stripTagsF : Nat → List Char → List Char
  | 0, l => l
  | fuel + 1, l =>
    match l with
    | [] => []
    | c :: t =>
      if c = '<' then
        match findSplit ['>'] t with
        | some (_, rest) => stripTagsF fuel rest
        | none => '<' :: stripTagsF fuel t
      else c :: stripTagsF fuel t

/-- Strip all remaining tags. -/
def stripTags (l : List Char) : List Char := stripTagsF l.length l

/-- `htmlToMarkdown` (popup.js and options.js): the fixed chain of global
substitutions in source order — strong, b, em, i, u, the four bare list
tags, li, br, p, then strip the remaining tags. -/
def htmlToMarkdown (html : String) : String :=
  ⟨stripTags
    (replacePair "<p>".data "</p>".data [] ['\n', '\n']
      (brStep
        (replacePair "<li>".data "</li>".data ['-', ' '] []
          (replacePlain "</ol>".data []
            (replacePlain "<ol>".data []
              (replacePlain "</ul>".data []
                (replacePlain "<ul>".data []
                  (replacePair "<u>".data "</u>".data ['_'] ['_']
                    (replacePair "<i>".data "</i>".data ['*'] ['*']
                      (replacePair "<em>".data "</em>".data ['*'] ['*']
                        (replacePair "<b>".data "</b>".data ['*', '*'] ['*', '*']
                          (replacePair "<strong>".data "</strong>".data ['*', '*'] ['*', '*']
                            html.data))))))))))))⟩

/-- C6: `htmlToMarkdown` is exactly the fixed ordered chain of pattern
substitutions (first conjunct, holding for every input), and on the
content `<p>Hello <strong>world</strong></p>` the produced
lightweight-markup body contains `Hello **world**` and no residual
angle-bracket characters. -/
theorem htmlToMarkdown_spec :
    (∀ html : String, htmlToMarkdown html =
      ⟨stripTags
        (replacePair "<p>".data "</p>".data [] ['\n', '\n']
          (brStep
            (replacePair "<li>".data "</li>".data ['-', ' '] []
              (replacePlain "</ol>".data []
                (replacePlain "<ol>".data []
                  (replacePlain "</ul>".data []
                    (replacePlain "<ul>".data []
                      (replacePair "<u>".data "</u>".data ['_'] ['_']
                        (replacePair "<i>".data "</i>".data ['*'] ['*']
                          (replacePair "<em>".data "</em>".data ['*'] ['*']
                            (replacePair "<b>".data "</b>".data ['*', '*'] ['*', '*']
                              (replacePair "<strong>".data "</strong>".data ['*', '*'] ['*', '*']
                                html.data))))))))))))⟩) ∧
    containsL (htmlToMarkdown "<p>Hello <strong>world</strong></p>").data
      "Hello **world**".data = true ∧
    (htmlToMarkdown "<p>Hello <strong>world</strong></p>").data.all
      (fun c => !(c = '<' || c = '>')) = true := by
  refine ⟨fun html => rfl, ?_, ?_⟩ <;> decide

/-! ### C10: export of the whole collection (popup vs options page) -/

/-- The four export formats of the `exportFormat` setting. -/
inductive ExportFormat
  | json
  | txt
  | md
  | html
deriving DecidableEq, Repr

/-- Decimal string of a natural number. -/
def natStr (n : Nat) : String := ⟨natStrL n⟩

/-- Decimal string of an integer (JavaScript number interpolation). -/
def intStr (i : Int) : String :=
  if i < 0 then "-" ++ natStr i.natAbs else natStr i.natAbs

/-- Model of the DOM-based `stripHtml` helper of popup.js / options.js
(`tmp.innerHTML := html; tmp.textContent`): drop the tags and decode the
basic character entities. -/
def stripHtml (html : String) : String :=
  ⟨replacePlain "&gt;".data ['>']
    (replacePlain "&lt;".data ['<']
      (replacePlain "&amp;".data ['&']
        (stripTags html.data)))⟩

/-- `formatDate` (popup.js): relative rendering of a timestamp against
the current time — "Today", "Yesterday", "N days ago" within a week, and
otherwise the locale date rendering, which the environment supplies as
`localeDate`. -/
def formatDate (localeDate : String) (now t : Nat) : String :=
  let diffTime := max now t - min now t
  let diffDays := (diffTime + 86400000 - 1) / 86400000
  if diffDays = 1 then "Today"
  else if diffDays = 2 then "Yesterday"
  else if diffDays ≤ 7 then intStr ((diffDays : Int) - 1) ++ " days ago"
  else localeDate

/-- A file handed to the `downloadFile` collaborator. -/
structure ExportFile where
  filename : String
  content : String
deriving Repr, DecidableEq

/-- The txt-format body shared by both export surfaces: per note a title
line, a date line, a blank line, the markup-stripped content, and a
separator line of 50 `=` characters. -/
def txtExport (notes : List Note) : String :=
  String.join (notes.map (fun note =>
    "Title: " ++ note.title ++ "\nDate: " ++ natStr note.modified ++ "\n\n"
      ++ stripHtml note.content ++ "\n\n" ++ ⟨List.replicate 50 '='⟩ ++ "\n\n"))

/-- `exportAllNotes` (popup.js).  `dateStr` stands for
`new Date().toISOString().split("T")[0]`, `todayLocale` for
`new Date().toLocaleDateString()` and `localeOf` for
`toLocaleDateString` applied to a stored timestamp.  The popup builds the
content for the chosen format and unconditionally downloads the file. -/
def exportAllNotes (notes : List Note) (format : ExportFormat) (dateStr todayLocale : String)
    (localeOf : Nat → String) (now : Nat) : ExportFile :=
  match format with
  | .json => { filename := "notes_" ++ dateStr ++ ".json", content := stringifyNotes notes }
  | .txt => { filename := "notes_" ++ dateStr ++ ".txt", content := txtExport notes }
  | .md =>
    { filename := "notes_" ++ dateStr ++ ".md",
      content := String.join (notes.map (fun note =>
        "# " ++ note.title ++ "\n\n*Modified: "
          ++ formatDate (localeOf note.modified) now note.modified ++ "*\n\n"
          ++ htmlToMarkdown note.content ++ "\n\n---\n\n")) }
  | .html =>
    { filename := "notes_" ++ dateStr ++ ".html",
      content :=
        "\n<!DOCTYPE html>\n<html>\n<head>\n    <title>NoteMaster Export</title>\n    <style>\n"
          ++ "        body \x7b font-family: Arial, sans-serif; max-width: 800px; "
          ++ "margin: 0 auto; padding: 20px; \x7d\n"
          ++ "        .note \x7b margin-bottom: 40px; border-bottom: 1px solid #eee; "
          ++ "padding-bottom: 20px; \x7d\n"
          ++ "        .note-title \x7b font-size: 24px; font-weight: bold; "
          ++ "margin-bottom: 10px; \x7d\n"
          ++ "        .note-meta \x7b color: #666; font-size: 14px; margin-bottom: 15px; \x7d\n"
          ++ "        .note-content \x7b line-height: 1.6; \x7d\n"
          ++ "    </style>\n</head>\n<body>\n    <h1>NoteMaster Export</h1>\n    <p>Exported on "
          ++ todayLocale ++ "</p>\n    "
          ++ String.join (notes.map (fun note =>
              "\n        <div class=\"note\">\n            <div class=\"note-title\">"
                ++ escapeHtml note.title
                ++ "</div>\n            <div class=\"note-meta\">Modified: "
                ++ formatDate (localeOf note.modified) now note.modified
                ++ "</div>\n            <div class=\"note-content\">" ++ note.content
                ++ "</div>\n        </div>\n    "))
          ++ "\n</body>\n</html>" }

/-- `generateHtmlExport` (options.js): the options-page hypertext
document, with note count in the header, "Untitled Note" fallback titles
and an "No content" fallback body. -/
def generateHtmlExport (notes : List Note) (todayLocale : String) (localeOf : Nat → String) :
    String :=
  "\n<!DOCTYPE html>\n<html>\n<head>\n    <title>NoteMaster Export</title>\n"
    ++ "    <meta charset=\"UTF-8\">\n    <style>\n        body \x7b \n"
    ++ "            font-family: -apple-system, BlinkMacSystemFont, 'Segoe UI', Roboto, "
    ++ "sans-serif;\n            max-width: 800px; \n            margin: 0 auto; \n"
    ++ "            padding: 20px;\n            line-height: 1.6;\n            color: #333;\n"
    ++ "        \x7d\n        .header \x7b\n            text-align: center;\n"
    ++ "            margin-bottom: 40px;\n            padding-bottom: 20px;\n"
    ++ "            border-bottom: 2px solid #eee;\n        \x7d\n        .note \x7b \n"
    ++ "            margin-bottom: 40px; \n            border-bottom: 1px solid #eee; \n"
    ++ "            padding-bottom: 20px; \n        \x7d\n        .note-title \x7b \n"
    ++ "            font-size: 24px; \n            font-weight: bold; \n"
    ++ "            margin-bottom: 10px;\n            color: #2563eb;\n        \x7d\n"
    ++ "        .note-meta \x7b \n            color: #666; \n            font-size: 14px; \n"
    ++ "            margin-bottom: 15px;\n        \x7d\n        .note-content \x7b \n"
    ++ "            line-height: 1.6;\n            margin-top: 15px;\n        \x7d\n"
    ++ "        .export-info \x7b\n            color: #666;\n            font-size: 14px;\n"
    ++ "        \x7d\n        @media (max-width: 600px) \x7b\n"
    ++ "            body \x7b padding: 15px; \x7d\n"
    ++ "            .note-title \x7b font-size: 20px; \x7d\n        \x7d\n    </style>\n"
    ++ "</head>\n<body>\n    <div class=\"header\">\n        <h1>NoteMaster Export</h1>\n"
    ++ "        <p class=\"export-info\">Exported on " ++ todayLocale ++ " | "
    ++ natStr notes.length ++ " notes</p>\n    </div>\n    "
    ++ String.join (notes.map (fun note =>
        "\n        <div class=\"note\">\n            <div class=\"note-title\">"
          ++ escapeHtml (if note.title = "" then "Untitled Note" else note.title)
          ++ "</div>\n            <div class=\"note-meta\">Modified: "
          ++ localeOf note.modified
          ++ "</div>\n            <div class=\"note-content\">"
          ++ (if note.content = "" then "<em>No content</em>" else note.content)
          ++ "</div>\n        </div>\n    "))
    ++ "\n</body>\n</html>"

/-- What an `OptionsManager.exportAllNotes` run produces: the downloaded
file (if any) and the `showSaveStatus` message with its kind. -/
structure OptionsExportOutcome where
  file : Option ExportFile
  status : Option (String × String)
deriving Repr, DecidableEq

/-- `exportAllNotes` (options.js): read the stored collection
(`result.notes || []`), refuse to export an empty collection with the
"No notes to export" error status and no file, otherwise build the
content for the chosen format, download it under a `notemaster_export_`
filename and show the success status; a storage read failure is caught
and shown as an error status. -/
def optionsExportAllNotes (stored : Option (List Note)) (readOk : Bool) (format : ExportFormat)
    (dateStr todayLocale : String) (localeOf : Nat → String) : OptionsExportOutcome :=
  if readOk then
    let notes := stored.getD []
    if notes.length = 0 then
      { file := none, status := some ("No notes to export", "error") }
    else
      { file := some
          { filename := "notemaster_export_" ++ dateStr ++
              (match format with
                | .json => ".json"
                | .txt => ".txt"
                | .md => ".md"
                | .html => ".html"),
            content :=
              match format with
              | .json => stringifyNotes notes
              | .txt => txtExport notes
              | .md => String.join (notes.map (fun note =>
                  "# " ++ note.title ++ "\n\n*Modified: " ++ localeOf note.modified
                    ++ "*\n\n" ++ htmlToMarkdown note.content ++ "\n\n---\n\n"))
              | .html => generateHtmlExport notes todayLocale localeOf },
        status := some ("Exported " ++ natStr notes.length ++ " notes successfully!",
          "success") }
  else
    { file := none, status := some ("Error exporting notes", "error") }

/-- File extension of the popup export filename per format. -/
def extOf : ExportFormat → String
  | .json => ".json"
  | .txt => ".txt"
  | .md => ".md"
  | .html => ".html"

/-- C10: with an empty stored collection the options-page export
produces no file for any chosen format — it signals the
"No notes to export" error and returns before serializing anything —
whereas the popup export still produces a file for every format
(`downloadFile` is called unconditionally), serializing the empty
collection (`[]`) in the structured-data format. -/
theorem export_empty_collection :
    (∀ (format : ExportFormat) (dateStr todayLocale : String) (localeOf : Nat → String),
      optionsExportAllNotes (some []) true format dateStr todayLocale localeOf
        = { file := none, status := some ("No notes to export", "error") } ∧
      optionsExportAllNotes none true format dateStr todayLocale localeOf
        = { file := none, status := some ("No notes to export", "error") }) ∧
    (∀ (format : ExportFormat) (dateStr todayLocale : String) (localeOf : Nat → String)
        (now : Nat),
      (exportAllNotes [] format dateStr todayLocale localeOf now).filename
        = "notes_" ++ dateStr ++ extOf format) ∧
    (∀ (dateStr todayLocale : String) (localeOf : Nat → String) (now : Nat),
      (exportAllNotes [] ExportFormat.json dateStr todayLocale localeOf now).content = "[]") := by
  refine ⟨fun format dateStr todayLocale localeOf => ⟨rfl, rfl⟩, ?_, fun _ _ _ _ => rfl⟩
  intro format dateStr todayLocale localeOf now
  cases format <;> rfl

end EasyNote
